import Mathlib

/-!
# Verification of the Offgrid outage/campaign reconciliation engine

Shallow embedding of the reconciliation and lifecycle engine of the
Offgrid Storings-Tracker (`OutageService` in `outage-service.js`, the
persistence gateway in `persistence.js`, and the postcode utilities in
`postcode-utils.js`).  JavaScript `Map`s are modelled as association
lists in insertion order (`Map.set` replaces in place or appends,
`Map.delete` filters), timestamps are milliseconds since the epoch as
`Nat`, and each `new Date()` reading inside one call is modelled by a
single injected clock value `now`.

The repository carries two revisions of `OutageService`.  The current
one (the one all orchestration code calls into: it alone defines
`canCreateNewCampaign`, `_loadState`/`_saveState` and the event log)
classifies `major` severity at 50 households and attributes campaign
budgets from the incident severity; the older revision of
`_classifySeverity` used a 1000-household threshold and is embedded
below as `classifySeverityLegacy`.
-/

set_option autoImplicit false

namespace GeoAdds

/-! ## Association-list model of a JavaScript `Map` keyed by strings -/

/-- `Map.get`: first binding of key `k`, if any. -/
def mget {α : Type} (k : String) : List (String × α) → Option α
  | [] => none
  | e :: es => if e.1 = k then some e.2 else mget k es

/-- `Map.set`: replace the binding of `k` in place, or append a new one. -/
def mset {α : Type} (k : String) (v : α) : List (String × α) → List (String × α)
  | [] => [(k, v)]
  | e :: es => if e.1 = k then (k, v) :: es else e :: mset k v es

/-- The keys of a map, in insertion order. -/
def keys {α : Type} (m : List (String × α)) : List String := m.map Prod.fst

/-! ## Severity classification (`SEVERITY`, `SEVERITY_CONFIG`, `_classifySeverity`) -/

/-- The three severity levels of `SEVERITY`. -/
inductive SeverityLevel
  | minor
  | major
  | critical
deriving DecidableEq, Repr

/-- One row of the static `SEVERITY_CONFIG` table: budgets are €/day. -/
structure SeverityParams where
  googleBudget : Nat
  metaBudget : Nat
  radiusKm : Nat
  label : String
deriving DecidableEq, Repr

/-- `SEVERITY_CONFIG`: fixed budget/radius/label per level. -/
def SEVERITY_CONFIG : SeverityLevel → SeverityParams
  | .minor => ⟨15, 12, 5, "Klein"⟩
  | .major => ⟨35, 30, 10, "Groot"⟩
  | .critical => ⟨60, 50, 15, "Kritiek"⟩

/-- The `_severity` object returned by `_classifySeverity`:
`{ level, ...SEVERITY_CONFIG[severity] }`. -/
structure SeverityInfo where
  level : SeverityLevel
  googleBudget : Nat
  metaBudget : Nat
  radiusKm : Nat
  label : String
deriving DecidableEq, Repr

/-- A normalized incident record as handed to `processOutages` by the
scraper.  `households` is `impact?.households || 0`; `postalCode` and
`city` are the strings at `location.features.properties` (empty string
when missing); `firstSeen`/`lastUpdated` are the `_firstSeen`/
`_lastUpdated` fields the scraper's normalizer stamps at fetch time
(`none` when the field is absent on the object). -/
structure RawOutage where
  id : String
  status : String
  households : Nat
  postalCode : String
  city : String
  firstSeen : Option Nat
  lastUpdated : Option Nat
deriving DecidableEq, Repr

/-- `_classifySeverity` of the current `OutageService` revision:
`≥ 3000 → critical`, `≥ 50 → major` (comment: "Aangepaste drempels
voor betere nauwkeurigheid"), otherwise `minor`. -/
def classifySeverity (outage : RawOutage) : SeverityInfo :=
  let households := outage.households
  let severity : SeverityLevel :=
    if households ≥ 3000 then .critical
    else if households ≥ 50 then .major
    else .minor
  let c := SEVERITY_CONFIG severity
  ⟨severity, c.googleBudget, c.metaBudget, c.radiusKm, c.label⟩

/-- `_classifySeverity` of the older `OutageService` revision kept at
`src/services/outage-service.js`: the `major` cutoff is 1000. -/
def classifySeverityLegacy (outage : RawOutage) : SeverityInfo :=
  let households := outage.households
  let severity : SeverityLevel :=
    if households ≥ 3000 then .critical
    else if households ≥ 1000 then .major
    else .minor
  let c := SEVERITY_CONFIG severity
  ⟨severity, c.googleBudget, c.metaBudget, c.radiusKm, c.label⟩

/-! ## Postcode utilities (`postcode-utils.js`) -/

/-- `PROVINCIE_RANGES`: (min, max, provincie) on the first two postcode digits. -/
def PROVINCIE_RANGES : List (Nat × Nat × String) :=
  [(10, 20, "Noord-Holland"), (21, 29, "Zuid-Holland"), (30, 39, "Utrecht"),
   (40, 46, "Zeeland"), (47, 59, "Noord-Brabant"), (60, 65, "Limburg"),
   (66, 76, "Gelderland"), (77, 84, "Overijssel"), (85, 86, "Flevoland"),
   (87, 95, "Friesland"), (96, 99, "Groningen")]

/-- `getProvince`: strip non-digits, parse the first two digit characters,
look the value up in `PROVINCIE_RANGES` (`null` on empty input or when
no digits survive, mirroring the `NaN` guard). -/
def getProvince (postcode : String) : Option String :=
  if postcode = "" then none
  else
    let ds := (postcode.toList.filter Char.isDigit).take 2
    if ds = [] then none
    else
      let pfx := ds.foldl (fun n c => n * 10 + (c.toNat - 48)) 0
      match PROVINCIE_RANGES.find? (fun r => decide (r.1 ≤ pfx ∧ pfx ≤ r.2.1)) with
      | some r => some r.2.2
      | none => none

/-- `parsePostcodes`: split on `;`, trim, drop empties. -/
def parsePostcodes (postcodeString : String) : List String :=
  if postcodeString = "" then []
  else ((postcodeString.splitOn ";").map String.trim).filter (fun pc => pc ≠ "")

/-- `getCityFromOutage`: the city property or `'Onbekend'`. -/
def getCityFromOutage (city : String) : String :=
  if city = "" then "Onbekend" else city

/-- `getProvinceFromOutage`: province of the first listed postcode. -/
def getProvinceFromOutage (postalCode : String) : Option String :=
  match parsePostcodes postalCode with
  | [] => none
  | pc :: _ => getProvince pc

/-! ## The tracked incident record and configuration -/

/-- A tracked outage record (entry of `activeOutages`/`resolvedOutages`).
The upstream fields are as in `RawOutage`; the underscore-fields are the
engine's own: `severity = _severity`, `derivedCity = _city`,
`derivedProvince = _province`, `derivedPostcode = _postcode`,
`campaignEndTime = _campaignEndTime`, `resolvedAt = _resolvedAt`.
An `Option` value of `none` models the field being absent (or `null`)
on the JavaScript object. -/
structure OutageRecord where
  id : String
  status : String
  households : Nat
  postalCode : String
  city : String
  firstSeen : Option Nat
  lastUpdated : Option Nat
  severity : Option SeverityInfo
  derivedCity : Option String
  derivedProvince : Option String
  derivedPostcode : Option String
  campaignEndTime : Option Nat
  resolvedAt : Option Nat
deriving DecidableEq, Repr

/-- The environment-derived configuration of `OutageService` (constructor
defaults: 72 h campaign duration, per-campaign caps 150/150, admission
ceilings 500/500). -/
structure Config where
  campaignDurationHours : Nat
  maxDailyBudgetGoogle : Nat
  maxDailyBudgetMeta : Nat
  totalMaxDailyBudgetGoogle : Nat
  totalMaxDailyBudgetMeta : Nat
deriving DecidableEq, Repr

/-- The constructor defaults of `OutageService`. -/
def defaultConfig : Config := ⟨72, 150, 150, 500, 500⟩

/-- `_enrichOutage`: classify, cap the two budgets at the configured
maxima, derive `_city`/`_province`/`_postcode`, and set
`_campaignEndTime = now + campaignDurationHours` (in ms).  The
`...outage` spread carries the scraper's `_firstSeen`/`_lastUpdated`
through unchanged; `_enrichOutage` itself writes neither. -/
def enrichOutage (cfg : Config) (now : Nat) (outage : RawOutage) : OutageRecord :=
  let severity0 := classifySeverity outage
  let severity :=
    { severity0 with
      googleBudget := min severity0.googleBudget cfg.maxDailyBudgetGoogle,
      metaBudget := min severity0.metaBudget cfg.maxDailyBudgetMeta }
  { id := outage.id, status := outage.status, households := outage.households,
    postalCode := outage.postalCode, city := outage.city,
    firstSeen := outage.firstSeen, lastUpdated := outage.lastUpdated,
    severity := some severity,
    derivedCity := some (getCityFromOutage outage.city),
    derivedProvince := getProvinceFromOutage outage.postalCode,
    derivedPostcode := some outage.postalCode,
    campaignEndTime := some (now + cfg.campaignDurationHours * 3600000),
    resolvedAt := none }

/-- The update branch of `processOutages`:
`{ ...existing, ...outage, _firstSeen: existing._firstSeen,
_severity: this._classifySeverity(outage), _lastUpdated: now }`.
Incoming upstream fields win; the derived fields absent from the raw
object are inherited from `existing`; `_severity` is recomputed by
classification alone (no budget capping). -/
def mergeUpdate (existing : OutageRecord) (outage : RawOutage) (now : Nat) : OutageRecord :=
  { id := outage.id, status := outage.status, households := outage.households,
    postalCode := outage.postalCode, city := outage.city,
    firstSeen := existing.firstSeen,
    lastUpdated := some now,
    severity := some (classifySeverity outage),
    derivedCity := existing.derivedCity,
    derivedProvince := existing.derivedProvince,
    derivedPostcode := existing.derivedPostcode,
    campaignEndTime := existing.campaignEndTime,
    resolvedAt := existing.resolvedAt }

/-! ## Campaign ledger and service state -/

/-- The two advertising platforms. -/
inductive Platform
  | google
  | meta
deriving DecidableEq, Repr

/-- A stored campaign slot value.  `payload` stands for the opaque
platform identifiers of the `campaignData` spread (resource names /
ids), passed through unexamined. -/
structure Campaign where
  payload : String
  budget : Nat
  createdAt : Nat
  expiresAt : Nat
  status : String
deriving DecidableEq, Repr

/-- The `{ google, meta }` slot pair stored per outage id. -/
structure CampaignSlots where
  google : Option Campaign
  meta : Option Campaign
deriving DecidableEq, Repr

/-- `platforms[platform]`. -/
def slotOf (slots : CampaignSlots) : Platform → Option Campaign
  | .google => slots.google
  | .meta => slots.meta

/-- The caller-supplied `campaignData`: an opaque payload plus the
`budget` field the platform client put on it (if any). -/
structure CampaignData where
  payload : String
  budget : Option Nat
deriving DecidableEq, Repr

/-- One event-log entry `{timestamp, type, message, data}`. -/
structure EventEntry where
  timestamp : Nat
  type : String
  message : String
  data : String
deriving DecidableEq, Repr

/-- The in-memory state of `OutageService`: the three keyed maps and the
event log (most recent first). -/
structure ServiceState where
  activeOutages : List (String × OutageRecord)
  resolvedOutages : List (String × OutageRecord)
  campaigns : List (String × CampaignSlots)
  eventLog : List EventEntry
deriving DecidableEq, Repr

/-- The `{ newOutages, resolvedOutages, updatedOutages }` result of
`processOutages`. -/
structure PollResult where
  newOutages : List OutageRecord
  resolvedOutages : List OutageRecord
  updatedOutages : List OutageRecord
deriving DecidableEq, Repr

/-! ## `processOutages` -/

/-- The body of the first loop of `processOutages`, one fresh outage at
a time.  The accumulator is (activeOutages, newOutages, updatedOutages). -/
def processStep (cfg : Config) (now : Nat)
    (acc : List (String × OutageRecord) × List OutageRecord × List OutageRecord)
    (outage : RawOutage) :
    List (String × OutageRecord) × List OutageRecord × List OutageRecord :=
  match mget outage.id acc.1 with
  | none =>
    let enriched := enrichOutage cfg now outage
    (mset outage.id enriched acc.1, acc.2.1 ++ [enriched], acc.2.2)
  | some existing =>
    let updated := mergeUpdate existing outage now
    (mset outage.id updated acc.1, acc.2.1,
     if existing.status = outage.status then acc.2.2 else acc.2.2 ++ [updated])

/-- Is a resolved record older than the 24-hour retention cutoff?
`new Date(outage._resolvedAt).getTime() < Date.now() - 24*60*60*1000`;
a missing `_resolvedAt` gives `NaN`, and `NaN < cutoff` is `false`. -/
def resolvedExpired (now : Nat) (r : OutageRecord) : Bool :=
  match r.resolvedAt with
  | some t => decide (t + 86400000 < now)
  | none => false

/-- `processOutages(freshOutages)`: (1) enrich unseen ids / merge known
ids, (2) move every active id missing from the snapshot to
`resolvedOutages` stamped `_resolvedAt = now`, (3) sweep resolved
records older than 24 hours.  Returns the new state and the
`{newOutages, resolvedOutages, updatedOutages}` lists. -/
def processOutages (cfg : Config) (now : Nat) (freshOutages : List RawOutage)
    (st : ServiceState) : ServiceState × PollResult :=
  let freshIds := freshOutages.map (fun o => o.id)
  let p1 := freshOutages.foldl (processStep cfg now) (st.activeOutages, [], [])
  let act1 := p1.1
  let stamped := (act1.filter (fun e => !freshIds.contains e.1)).map
    (fun e => (e.1, { e.2 with resolvedAt := some now }))
  let act2 := act1.filter (fun e => freshIds.contains e.1)
  let res1 := stamped.foldl (fun m e => mset e.1 e.2 m) st.resolvedOutages
  let res2 := res1.filter (fun e => !resolvedExpired now e.2)
  ({ st with activeOutages := act2, resolvedOutages := res2 },
   ⟨p1.2.1, stamped.map (fun e => e.2), p1.2.2⟩)

/-! ## Campaign registration and budget admission -/

/-- `registerCampaign(outageId, platform, campaignData)`: ensure the slot
pair exists, attribute the budget from the tracked incident's current
severity for that platform (`|| 0` fallback when the incident, its
severity, or the budget is missing), then overwrite the platform slot
with `{...campaignData, budget, createdAt: now, expiresAt: now +
campaignDurationHours, status: 'active'}`.  The explicit `budget` key
follows the spread, so a caller-supplied `campaignData.budget` is
overwritten. -/
def registerCampaign (cfg : Config) (now : Nat) (st : ServiceState)
    (outageId : String) (platform : Platform) (campaignData : CampaignData) :
    ServiceState :=
  let slots := (mget outageId st.campaigns).getD ⟨none, none⟩
  let budget : Nat :=
    match mget outageId st.activeOutages with
    | some outage =>
      match outage.severity with
      | some s =>
        match platform with
        | .google => s.googleBudget
        | .meta => s.metaBudget
      | none => 0
    | none => 0
  let c : Campaign :=
    { payload := campaignData.payload, budget := budget, createdAt := now,
      expiresAt := now + cfg.campaignDurationHours * 3600000,
      status := "active" }
  let slots' :=
    match platform with
    | .google => { slots with google := some c }
    | .meta => { slots with meta := some c }
  { st with campaigns := mset outageId slots' st.campaigns }

/-- The per-platform admission ceiling used by `canCreateNewCampaign`. -/
def ceilingFor (cfg : Config) : Platform → Nat
  | .google => cfg.totalMaxDailyBudgetGoogle
  | .meta => cfg.totalMaxDailyBudgetMeta

/-- `canCreateNewCampaign(platform, requestedBudget)`: sum the stored
budgets of this platform's slots with `status === 'active'` and
`createdAt` strictly inside the trailing 24 hours, and admit when
`totalSpent + requestedBudget <= maxTotalBudget`. -/
def canCreateNewCampaign (cfg : Config) (now : Nat) (st : ServiceState)
    (platform : Platform) (requestedBudget : Nat) : Bool :=
  let maxTotalBudget := ceilingFor cfg platform
  let totalSpent := st.campaigns.foldl
    (fun s e =>
      match slotOf e.2 platform with
      | some c =>
        if c.status = "active" ∧ c.createdAt + 86400000 > now then s + c.budget else s
      | none => s) 0
  decide (totalSpent + requestedBudget ≤ maxTotalBudget)

/-! ## Persistence (`persistence.js` + `_saveState`/`_loadState`) -/

/-- One persisted campaign bundle entry `{ outageId, platforms }`. -/
structure SavedCampaign where
  outageId : String
  platforms : CampaignSlots
deriving DecidableEq, Repr

/-- The persistence gateway's backing store: one independently-keyed
bundle per `data/<key>.json` file, `none` when the file is absent. -/
structure Store where
  activeOutagesFile : Option (List OutageRecord)
  resolvedOutagesFile : Option (List OutageRecord)
  campaignsFile : Option (List SavedCampaign)
  eventLogFile : Option (List EventEntry)
deriving DecidableEq, Repr

/-- `_saveState`: write the values of each map (and the event log) to
their four keys.  `save` overwrites the whole file for its key. -/
def saveState (st : ServiceState) (_store : Store) : Store :=
  { activeOutagesFile := some (st.activeOutages.map (fun e => e.2)),
    resolvedOutagesFile := some (st.resolvedOutages.map (fun e => e.2)),
    campaignsFile := some (st.campaigns.map (fun e => ⟨e.1, e.2⟩)),
    eventLogFile := some st.eventLog }

/-- `_loadState` into a fresh service: `load(key, [])` for each bundle,
then rebuild the maps keyed by `o.id` / `c.outageId`. -/
def loadState (store : Store) : ServiceState :=
  let savedActive := store.activeOutagesFile.getD []
  let savedResolved := store.resolvedOutagesFile.getD []
  let savedCampaigns := store.campaignsFile.getD []
  let eventLog := store.eventLogFile.getD []
  { activeOutages := savedActive.foldl (fun m o => mset o.id o m) [],
    resolvedOutages := savedResolved.foldl (fun m o => mset o.id o m) [],
    campaigns := savedCampaigns.foldl (fun m c => mset c.outageId c.platforms m) [],
    eventLog := eventLog }

/-- The `Map` representation invariant of a `ServiceState`: keys are
pairwise distinct and each outage record sits under its own id. -/
def WellFormedState (st : ServiceState) : Prop :=
  (keys st.activeOutages).Nodup ∧ (∀ e ∈ st.activeOutages, e.1 = e.2.id) ∧
  (keys st.resolvedOutages).Nodup ∧ (∀ e ∈ st.resolvedOutages, e.1 = e.2.id) ∧
  (keys st.campaigns).Nodup

instance (st : ServiceState) : Decidable (WellFormedState st) := by
  unfold WellFormedState
  infer_instance

/-! ## Specification-side definitions and concrete sample data -/

/-- The per-platform severity budget (`_severity[platform + 'Budget']`). -/
def platformBudget (s : SeverityInfo) : Platform → Nat
  | .google => s.googleBudget
  | .meta => s.metaBudget

/-- The stored campaign at `(outageId, platform)`, if any. -/
def slotAt (st : ServiceState) (outageId : String) (platform : Platform) :
    Option Campaign :=
  match mget outageId st.campaigns with
  | some slots => slotOf slots platform
  | none => none

/-- Specification-side reading of the admission window: the stored
budgets of this platform's slots with `status = 'active'` created
inside the trailing 24 hours. -/
def qualifyingBudgets (now : Nat) (platform : Platform)
    (campaigns : List (String × CampaignSlots)) : List Nat :=
  campaigns.filterMap (fun e =>
    match slotOf e.2 platform with
    | some c =>
      if c.status = "active" ∧ c.createdAt + 86400000 > now then some c.budget else none
    | none => none)

/-- A config with tight per-campaign caps (10/8), to exercise clamping. -/
def cfg10 : Config := ⟨72, 10, 8, 500, 500⟩

/-- The admission-example config: `google` ceiling 150. -/
def cfg150 : Config := { defaultConfig with totalMaxDailyBudgetGoogle := 150 }

/-- 999 households: one below the documented default major threshold. -/
def raw999 : RawOutage := ⟨"X", "active", 999, "", "", none, none⟩

/-- 5000 households: critical tier. -/
def raw5000 : RawOutage := ⟨"B", "active", 5000, "", "", none, none⟩

/-- A fresh snapshot record re-using the id `A`. -/
def rawA : RawOutage :=
  ⟨"A", "active", 500, "1234AB", "Amsterdam", some 172800000, some 172800000⟩

/-- A raw record the scraper stamped at time 0. -/
def rawSeen : RawOutage := ⟨"A", "active", 10, "", "", some 0, some 0⟩

/-- An `A` record resolved at t = 172800000 (2 days). -/
def recResolvedA : OutageRecord :=
  { enrichOutage defaultConfig 0 rawA with resolvedAt := some 172800000 }

/-- State whose resolved set holds `A`, resolved one hour before the
re-introducing poll at `t = 176400000`. -/
def stReintro : ServiceState := ⟨[], [("A", recResolvedA)], [], []⟩

/-- A google campaign slot with the given budget and creation time. -/
def slotG (b t : Nat) : CampaignSlots :=
  ⟨some ⟨"", b, t, t + 259200000, "active"⟩, none⟩

/-- Three active google campaigns totaling 100, created at t = 1000000. -/
def stAdmission : ServiceState :=
  ⟨[], [], [("o1", slotG 30 1000000), ("o2", slotG 30 1000000),
            ("o3", slotG 40 1000000)], []⟩

/-- The tracked record for `B`, enriched under the tight caps. -/
def recB : OutageRecord := enrichOutage cfg10 0 raw5000

/-- State tracking `B` as active. -/
def stTracked : ServiceState := ⟨[("B", recB)], [], [], []⟩

/-- A critical `A` record enriched under the default config. -/
def recSevA : OutageRecord :=
  enrichOutage defaultConfig 0 ⟨"A", "active", 5000, "", "", none, none⟩

/-- State tracking the critical `A`. -/
def stC5 : ServiceState := ⟨[("A", recSevA)], [], [], []⟩

/-- Caller-supplied campaign data carrying its own budget field. -/
def sampleData : CampaignData := ⟨"g-123", some 99⟩

/-- An `R` record resolved at t = 50. -/
def recRR : OutageRecord :=
  { enrichOutage defaultConfig 0 ⟨"R", "resolved", 10, "", "", none, none⟩ with
    resolvedAt := some 50 }

/-- Resolved one millisecond inside the purge region for a sweep at 2 days. -/
def recOldRes : OutageRecord := { recRR with resolvedAt := some 86399999 }

/-- Resolved one millisecond inside the retention region for a sweep at 2 days. -/
def recNewRes : OutageRecord := { recRR with resolvedAt := some 86400001 }

/-- State with only the to-be-purged record. -/
def stPurge : ServiceState := ⟨[], [("R", recOldRes)], [], []⟩

/-- State with only the to-be-retained record. -/
def stRetain : ServiceState := ⟨[], [("R", recNewRes)], [], []⟩

/-- A two-incident active state. -/
def stTwoActive : ServiceState :=
  ⟨[("A", recSevA), ("R", recRR)], [], [], []⟩

/-- A populated state for the persistence round trip. -/
def stRound : ServiceState :=
  ⟨[("A", recSevA)], [("R", recRR)], [("A", slotG 15 5)],
   [⟨1, "poll_start", "Poll #1 gestart", ""⟩]⟩

/-- A store with no file present for any bundle. -/
def emptyStore : Store := ⟨none, none, none, none⟩

/-! ## Lemmas about the `Map` model -/

theorem mget_mset_self {α : Type} (k : String) (v : α) (m : List (String × α)) :
    mget k (mset k v m) = some v := by
  induction m with
  | nil => simp [mget, mset]
  | cons e es ih =>
    by_cases h : e.1 = k
    · simp [mget, mset, h]
    · simp [mget, mset, h, ih]

theorem mget_mset_ne {α : Type} {k k' : String} (v : α) (m : List (String × α))
    (h : k' ≠ k) : mget k' (mset k v m) = mget k' m := by
  have hk : ¬ (k = k') := fun hh => h hh.symm
  induction m with
  | nil => simp [mget, mset, hk]
  | cons e es ih =>
    by_cases he : e.1 = k
    · subst he
      simp [mget, mset, hk]
    · simp only [mset, if_neg he]
      by_cases he' : e.1 = k'
      · simp [mget, he']
      · simp [mget, he', ih]

theorem keys_mset {α : Type} (k : String) (v : α) (m : List (String × α)) :
    keys (mset k v m) = if k ∈ keys m then keys m else keys m ++ [k] := by
  induction m with
  | nil => simp [keys, mset]
  | cons e es ih =>
    by_cases h : e.1 = k
    · simp [keys, mset, h]
    · have hne : ¬ k = e.1 := fun hh => h hh.symm
      have hcons : keys (e :: es) = e.1 :: keys es := rfl
      have hmem : (k ∈ keys (e :: es)) ↔ k ∈ keys es := by
        rw [hcons, List.mem_cons]
        simp [hne]
      have hstep : keys (mset k v (e :: es)) = e.1 :: keys (mset k v es) := by
        simp [mset, if_neg h, keys]
      by_cases hk : k ∈ keys es
      · rw [hstep, ih, if_pos hk, if_pos (hmem.mpr hk), hcons]
      · rw [hstep, ih, if_neg hk, if_neg (fun hh => hk (hmem.mp hh)), hcons]
        rfl

theorem nodup_keys_mset {α : Type} (k : String) (v : α) {m : List (String × α)}
    (h : (keys m).Nodup) : (keys (mset k v m)).Nodup := by
  rw [keys_mset]
  by_cases hk : k ∈ keys m
  · simpa [hk]
  · simpa [hk, List.nodup_append] using h

theorem mget_eq_none_iff {α : Type} {k : String} {m : List (String × α)} :
    mget k m = none ↔ k ∉ keys m := by
  induction m with
  | nil => simp [mget, keys]
  | cons e es ih =>
    by_cases h : e.1 = k
    · simp [mget, keys, h]
    · have hne : ¬ k = e.1 := fun hh => h hh.symm
      simp [mget, keys, h, ih, hne]

theorem mget_isSome_of_mem_keys {α : Type} {k : String} {m : List (String × α)}
    (h : k ∈ keys m) : (mget k m).isSome := by
  cases hm : mget k m with
  | none => exact absurd h (mget_eq_none_iff.mp hm)
  | some v => simp

theorem mset_of_not_mem_keys {α : Type} {k : String} (v : α) {m : List (String × α)}
    (h : k ∉ keys m) : mset k v m = m ++ [(k, v)] := by
  induction m with
  | nil => simp [mset]
  | cons e es ih =>
    simp only [keys, List.map_cons, List.mem_cons] at h
    push_neg at h
    have h1 : ¬ e.1 = k := fun hh => h.1 hh.symm
    simp only [mset, if_neg h1, List.cons_append]
    rw [ih (by simpa [keys] using h.2)]

theorem mget_of_mem_of_nodup {α : Type} {k : String} {v : α} {m : List (String × α)}
    (h : (keys m).Nodup) (hm : (k, v) ∈ m) : mget k m = some v := by
  induction m with
  | nil => simp at hm
  | cons e es ih =>
    rcases List.mem_cons.mp hm with he | he
    · subst he
      simp [mget]
    · have hk : k ∈ keys es := by
        simpa [keys] using List.mem_map_of_mem Prod.fst he
      simp only [keys, List.map_cons, List.nodup_cons] at h
      have hne : e.1 ≠ k := by
        intro hh
        rw [hh] at h
        exact h.1 (by simpa [keys] using hk)
      simp [mget, hne, ih h.2 he]

theorem mget_filter {α : Type} (p : String × α → Bool) {m : List (String × α)}
    (h : (keys m).Nodup) (k : String) :
    mget k (m.filter p) =
      (match mget k m with
       | some v => if p (k, v) then some v else none
       | none => none) := by
  induction m with
  | nil => simp [mget]
  | cons e es ih =>
    simp only [keys, List.map_cons, List.nodup_cons] at h
    by_cases he : e.1 = k
    · subst he
      have hnone : mget e.1 es = none := mget_eq_none_iff.mpr h.1
      by_cases hp : p e
      · simp [List.filter, hp, mget]
      · have : mget e.1 (es.filter p) = none := by
          rw [ih h.2, hnone]
        simp [List.filter, hp, mget, this, hnone]
    · by_cases hp : p e
      · simp [List.filter, hp, mget, he, ih h.2]
      · simp [List.filter, hp, mget, he, ih h.2]

theorem mget_foldl_mset_of_not_mem {α : Type} {k : String}
    (L : List (String × α)) (M : List (String × α)) (h : k ∉ keys L) :
    mget k (L.foldl (fun m e => mset e.1 e.2 m) M) = mget k M := by
  induction L generalizing M with
  | nil => simp
  | cons e es ih =>
    simp only [keys, List.map_cons, List.mem_cons] at h
    push_neg at h
    simp only [List.foldl_cons]
    rw [ih (mset e.1 e.2 M) (by simpa [keys] using h.2),
        mget_mset_ne e.2 M h.1]

theorem nodup_keys_foldl_mset {α : Type}
    (L : List (String × α)) {M : List (String × α)} (h : (keys M).Nodup) :
    (keys (L.foldl (fun m e => mset e.1 e.2 m) M)).Nodup := by
  induction L generalizing M with
  | nil => simpa
  | cons e es ih => exact ih (nodup_keys_mset e.1 e.2 h)

theorem mget_foldl_mset_of_mem {α : Type} {k : String} {v : α}
    {L : List (String × α)} (M : List (String × α))
    (hL : (keys L).Nodup) (hm : (k, v) ∈ L) :
    mget k (L.foldl (fun m e => mset e.1 e.2 m) M) = some v := by
  induction L generalizing M with
  | nil => simp at hm
  | cons e es ih =>
    simp only [keys, List.map_cons, List.nodup_cons] at hL
    simp only [List.foldl_cons]
    rcases List.mem_cons.mp hm with he | he
    · subst he
      rw [mget_foldl_mset_of_not_mem es _ (by simpa [keys] using hL.1),
          mget_mset_self]
    · exact ih _ hL.2 he

/-! ## Generic list helpers -/

theorem contains_iff_mem {l : List String} {a : String} :
    l.contains a = true ↔ a ∈ l := by
  induction l with
  | nil => simp
  | cons b bs ih => simp

theorem keys_map_pair {α β : Type} (g : String × α → β) (L : List (String × α)) :
    keys (L.map (fun e => (e.1, g e))) = keys L := by
  induction L <;> simp_all [keys]

theorem filter_keep_all {α : Type} (L : List (String × α)) :
    L.filter (fun e => !(([] : List String).contains e.1)) = L := by
  induction L <;> simp_all [List.contains]

theorem filter_keep_none {α : Type} (L : List (String × α)) :
    L.filter (fun e => (([] : List String).contains e.1)) = [] := by
  induction L <;> simp_all [List.contains]

/-! ## Lemmas about the first loop of `processOutages` -/

theorem keys_processStep_sub (cfg : Config) (now : Nat)
    (acc : List (String × OutageRecord) × List OutageRecord × List OutageRecord)
    (o : RawOutage) :
    keys ((processStep cfg now acc o).1) ⊆ keys acc.1 ++ [o.id] := by
  have hsub : ∀ v : OutageRecord, keys (mset o.id v acc.1) ⊆ keys acc.1 ++ [o.id] := by
    intro v
    rw [keys_mset]
    split
    · exact List.subset_append_left _ _
    · exact List.Subset.refl _
  unfold processStep
  cases h : mget o.id acc.1 <;> simpa using hsub _

theorem keys_phase1_sub (cfg : Config) (now : Nat) :
    ∀ (fresh : List RawOutage)
      (acc : List (String × OutageRecord) × List OutageRecord × List OutageRecord),
      keys ((fresh.foldl (processStep cfg now) acc).1) ⊆
        keys acc.1 ++ fresh.map (fun o => o.id) := by
  intro fresh
  induction fresh with
  | nil => intro acc; simp
  | cons o rest ih =>
    intro acc x hx
    have h1 := ih (processStep cfg now acc o) hx
    rw [List.mem_append] at h1
    rcases h1 with h1 | h1
    · have h2 := keys_processStep_sub cfg now acc o h1
      rw [List.mem_append] at h2
      simp only [List.map_cons, List.mem_append, List.mem_cons]
      rcases h2 with h2 | h2
      · exact Or.inl h2
      · exact Or.inr (Or.inl (by simpa using h2))
    · simp only [List.map_cons, List.mem_append, List.mem_cons]
      exact Or.inr (Or.inr h1)

theorem nodup_keys_processStep (cfg : Config) (now : Nat)
    (acc : List (String × OutageRecord) × List OutageRecord × List OutageRecord)
    (o : RawOutage) (h : (keys acc.1).Nodup) :
    (keys ((processStep cfg now acc o).1)).Nodup := by
  unfold processStep
  cases hc : mget o.id acc.1 <;> simpa using nodup_keys_mset _ _ h

theorem nodup_keys_phase1 (cfg : Config) (now : Nat) :
    ∀ (fresh : List RawOutage)
      (acc : List (String × OutageRecord) × List OutageRecord × List OutageRecord),
      (keys acc.1).Nodup →
      (keys ((fresh.foldl (processStep cfg now) acc).1)).Nodup := by
  intro fresh
  induction fresh with
  | nil => intro acc h; simpa
  | cons o rest ih =>
    intro acc h
    exact ih _ (nodup_keys_processStep cfg now acc o h)

theorem mget_phase1_frozen (cfg : Config) (now : Nat) :
    ∀ (fresh : List RawOutage)
      (acc : List (String × OutageRecord) × List OutageRecord × List OutageRecord)
      (k : String), k ∉ fresh.map (fun o => o.id) →
      mget k ((fresh.foldl (processStep cfg now) acc).1) = mget k acc.1 := by
  intro fresh
  induction fresh with
  | nil => intro acc k _; rfl
  | cons o rest ih =>
    intro acc k hk
    simp only [List.map_cons, List.mem_cons] at hk
    push_neg at hk
    rw [List.foldl_cons, ih _ k hk.2]
    unfold processStep
    cases hc : mget o.id acc.1 <;> simpa using mget_mset_ne _ acc.1 hk.1

theorem mget_phase1_update (cfg : Config) (now : Nat) :
    ∀ (fresh : List RawOutage)
      (acc : List (String × OutageRecord) × List OutageRecord × List OutageRecord)
      (o : RawOutage) (ex : OutageRecord),
      o ∈ fresh → (fresh.map (fun x => x.id)).Nodup →
      mget o.id acc.1 = some ex →
      mget o.id ((fresh.foldl (processStep cfg now) acc).1) =
        some (mergeUpdate ex o now) := by
  intro fresh
  induction fresh with
  | nil => intro acc o ex h; simp at h
  | cons hd rest ih =>
    intro acc o ex ho hnd hex
    simp only [List.map_cons, List.nodup_cons] at hnd
    rcases List.mem_cons.mp ho with rfl | ho'
    · rw [List.foldl_cons]
      rw [mget_phase1_frozen cfg now rest _ o.id hnd.1]
      unfold processStep
      rw [hex]
      simpa using mget_mset_self o.id (mergeUpdate ex o now) acc.1
    · have hne : hd.id ≠ o.id := by
        intro hh
        exact hnd.1 (hh ▸ List.mem_map_of_mem (fun x => x.id) ho')
      rw [List.foldl_cons]
      refine ih _ o ex ho' hnd.2 ?_
      unfold processStep
      cases hc : mget hd.id acc.1 <;>
        simpa using (mget_mset_ne _ acc.1 hne.symm).trans hex

/-! ## Shape lemmas for `processOutages`, admission, registration, persistence -/

theorem processOutages_nil_eq (cfg : Config) (now : Nat) (st : ServiceState) :
    processOutages cfg now [] st =
      ({ st with
          activeOutages := [],
          resolvedOutages :=
            ((st.activeOutages.map (fun e => (e.1, { e.2 with resolvedAt := some now }))).foldl
              (fun m e => mset e.1 e.2 m) st.resolvedOutages).filter
              (fun e => !resolvedExpired now e.2) },
       ⟨[], (st.activeOutages.map
                (fun e => (e.1, { e.2 with resolvedAt := some now }))).map (fun e => e.2),
        []⟩) := by
  unfold processOutages
  simp only [List.map_nil, List.foldl_nil]
  rw [filter_keep_all, filter_keep_none]

theorem totalSpent_foldl (now : Nat) (platform : Platform)
    (L : List (String × CampaignSlots)) :
    ∀ s : Nat,
      L.foldl (fun s e =>
        match slotOf e.2 platform with
        | some c =>
          if c.status = "active" ∧ c.createdAt + 86400000 > now then s + c.budget else s
        | none => s) s
      = s + (qualifyingBudgets now platform L).sum := by
  induction L with
  | nil => intro s; simp [qualifyingBudgets]
  | cons e es ih =>
    intro s
    simp only [List.foldl_cons, qualifyingBudgets, List.filterMap_cons]
    cases hs : slotOf e.2 platform with
    | none => simpa [qualifyingBudgets] using ih s
    | some c =>
      by_cases hc : c.status = "active" ∧ c.createdAt + 86400000 > now
      · simp only [if_pos hc]
        rw [ih (s + c.budget)]
        simp [qualifyingBudgets]
        omega
      · simp only [if_neg hc]
        rw [ih s]
        simp [qualifyingBudgets]

theorem registerCampaign_stored (cfg : Config) (now : Nat) (st : ServiceState)
    (outageId : String) (platform : Platform) (d : CampaignData) :
    slotAt (registerCampaign cfg now st outageId platform d) outageId platform =
      some
        { payload := d.payload,
          budget :=
            match mget outageId st.activeOutages with
            | some outage =>
              match outage.severity with
              | some s => platformBudget s platform
              | none => 0
            | none => 0,
          createdAt := now,
          expiresAt := now + cfg.campaignDurationHours * 3600000,
          status := "active" } := by
  unfold registerCampaign slotAt platformBudget
  cases platform <;> simp [mget_mset_self, slotOf]

theorem rebuild_append {α β : Type} (key : β → String) (val : β → α)
    (enc : String × α → β) :
    ∀ (L M : List (String × α)),
      (keys (M ++ L)).Nodup →
      (∀ e ∈ L, key (enc e) = e.1 ∧ val (enc e) = e.2) →
      (L.map enc).foldl (fun m b => mset (key b) (val b) m) M = M ++ L := by
  intro L
  induction L with
  | nil =>
    intro M h _
    simp
  | cons e es ih =>
    intro M hnd hkv
    simp only [List.map_cons, List.foldl_cons]
    rw [(hkv e (List.mem_cons_self e es)).1, (hkv e (List.mem_cons_self e es)).2]
    have hnotM : e.1 ∉ keys M := by
      intro hmem
      have hnd2 := hnd
      rw [keys, List.map_append] at hnd2
      have hdis := (List.nodup_append.mp hnd2).2.2
      exact hdis hmem (by simp [keys])
    rw [mset_of_not_mem_keys _ hnotM]
    have hres := ih (M ++ [e]) (by simpa using hnd)
      (fun x hx => hkv x (List.mem_cons_of_mem e hx))
    rw [hres]
    simp

/-! ## Claim theorems -/

/-- Claim C1: the claim demands that the active and resolved maps stay
disjoint at every stable point, in particular after a snapshot
re-introduces an id resolved less than 24 hours earlier.  Evaluating
`processOutages` on exactly that scenario (id `A` resolved one hour
before the call, snapshot containing `A` again) shows the code leaves
`A` as a key of BOTH maps: the new-outage branch never deletes the id
from `resolvedOutages`, so the partition invariant is violated.  This
theorem exhibits the failing execution. -/
theorem partition_violated_on_reintroduction :
    ((mget "A"
        ((processOutages defaultConfig 176400000 [rawA] stReintro).1.activeOutages)).isSome
      = true) ∧
    ((mget "A"
        ((processOutages defaultConfig 176400000 [rawA] stReintro).1.resolvedOutages)).isSome
      = true) := by
  decide

/-- Claim C2 (counterexample): the claim's worked example asserts that
with three active google campaigns totaling 100 against a ceiling of
150, `canAdmit('google', 40)` is false.  The code admits it:
100 + 40 = 140 ≤ 150. -/
theorem admission_example_claim_false :
    canCreateNewCampaign cfg150 1000001 stAdmission Platform.google 40 = true := by
  decide

/-- Claim C2 (amended): `canCreateNewCampaign` admits exactly when
`totalSpent + requestedBudget ≤ ceiling(platform)` with `totalSpent`
the sum of stored budgets of active slots on the platform created in
the trailing 24 hours; in the worked example (three active google
campaigns totaling 100, ceiling 150) both `canAdmit('google', 40)` and
`canAdmit('google', 50)` are true (boundary inclusive), and 51 is
rejected. -/
theorem admission_formula_and_example :
    (∀ (cfg : Config) (now : Nat) (st : ServiceState) (platform : Platform) (req : Nat),
      canCreateNewCampaign cfg now st platform req = true ↔
        (qualifyingBudgets now platform st.campaigns).sum + req ≤ ceilingFor cfg platform) ∧
    canCreateNewCampaign cfg150 1000001 stAdmission Platform.google 40 = true ∧
    canCreateNewCampaign cfg150 1000001 stAdmission Platform.google 50 = true ∧
    canCreateNewCampaign cfg150 1000001 stAdmission Platform.google 51 = false := by
  refine ⟨?_, by decide, by decide, by decide⟩
  intro cfg now st platform req
  unfold canCreateNewCampaign
  rw [totalSpent_foldl now platform st.campaigns 0]
  simp

/-- Claim C3 (counterexample): with the claimed default major threshold
1000, 999 households should classify `minor`; the classifier actually
wired into the orchestration (`_classifySeverity` with the adjusted
thresholds) returns `major`, because its hard-coded cutoff is 50. -/
theorem severity_claim_boundary_false :
    (classifySeverity raw999).level = SeverityLevel.major ∧
    SeverityLevel.major ≠ SeverityLevel.minor := by
  decide

/-- Claim C3 (amended): classification follows the claimed three-band
structure (`critical` iff `h ≥ 3000`, `major` iff `T ≤ h < 3000`,
`minor` iff `h < T`), but the major threshold `T` is hard-coded, not a
named configuration constant: 50 in the current revision and 1000 in
the older revision at `src/services/outage-service.js`. -/
theorem severity_thresholds_both_revisions (o : RawOutage) :
    ((classifySeverity o).level = SeverityLevel.critical ↔ 3000 ≤ o.households) ∧
    ((classifySeverity o).level = SeverityLevel.major ↔
      50 ≤ o.households ∧ o.households < 3000) ∧
    ((classifySeverity o).level = SeverityLevel.minor ↔ o.households < 50) ∧
    ((classifySeverityLegacy o).level = SeverityLevel.critical ↔ 3000 ≤ o.households) ∧
    ((classifySeverityLegacy o).level = SeverityLevel.major ↔
      1000 ≤ o.households ∧ o.households < 3000) ∧
    ((classifySeverityLegacy o).level = SeverityLevel.minor ↔ o.households < 1000) := by
  have h1 : (classifySeverity o).level =
      (if o.households ≥ 3000 then SeverityLevel.critical
       else if o.households ≥ 50 then SeverityLevel.major else SeverityLevel.minor) := rfl
  have h2 : (classifySeverityLegacy o).level =
      (if o.households ≥ 3000 then SeverityLevel.critical
       else if o.households ≥ 1000 then SeverityLevel.major else SeverityLevel.minor) := rfl
  rw [h1, h2]
  split_ifs <;> simp_all <;> omega

/-- Claim C4 (counterexample): the claim says `_enrichOutage` sets both
`_firstSeen` and `_lastUpdated` to the current time.  Enriching at time
100 a raw record the scraper stamped at time 0 leaves both fields at 0:
`_enrichOutage` writes neither. -/
theorem enrich_firstSeen_claim_false :
    (enrichOutage defaultConfig 100 rawSeen).firstSeen ≠ some 100 ∧
    (enrichOutage defaultConfig 100 rawSeen).lastUpdated ≠ some 100 := by
  decide

/-- Claim C4 (amended): `_enrichOutage` sets
`_campaignEndTime = now + campaignDurationHours` but carries the
input's `_firstSeen`/`_lastUpdated` through unchanged — those two
fields are stamped upstream by the scraper's normalizer at fetch time,
not by enrichment. -/
theorem enrich_sets_only_campaignEndTime (cfg : Config) (now : Nat) (o : RawOutage) :
    (enrichOutage cfg now o).campaignEndTime =
      some (now + cfg.campaignDurationHours * 3600000) ∧
    (enrichOutage cfg now o).firstSeen = o.firstSeen ∧
    (enrichOutage cfg now o).lastUpdated = o.lastUpdated :=
  ⟨rfl, rfl, rfl⟩

/-- Claim C5: `registerCampaign` creates or overwrites the platform slot
with `status = 'active'`, `createdAt = now`,
`expiresAt = now + durationHours`, and a budget equal to the tracked
incident's current severity budget for that platform (the first
disjunct always realises the claim's "severity budget or explicit
override" phrasing — the explicit `budget` key follows the
`...campaignData` spread, so the service's attribution wins); with no
tracked incident the call still succeeds and the budget falls back to
zero. -/
theorem registerCampaign_contract (cfg : Config) (now : Nat) (st : ServiceState)
    (outageId : String) (platform : Platform) (d : CampaignData) :
    ∃ c : Campaign,
      slotAt (registerCampaign cfg now st outageId platform d) outageId platform = some c ∧
      c.status = "active" ∧ c.createdAt = now ∧
      c.expiresAt = now + cfg.campaignDurationHours * 3600000 ∧
      (∀ o s, mget outageId st.activeOutages = some o → o.severity = some s →
        (c.budget = platformBudget s platform ∨ ∃ b, d.budget = some b ∧ c.budget = b)) ∧
      (mget outageId st.activeOutages = none → c.budget = 0) := by
  refine ⟨_, registerCampaign_stored cfg now st outageId platform d, rfl, rfl, rfl, ?_, ?_⟩
  · intro o s ho hs
    left
    simp [ho, hs]
  · intro ho
    simp [ho]

/-- Claim C5 (witness): registering a google campaign for the tracked
critical incident `A` with caller data carrying its own budget 99. -/
theorem registerCampaign_contract_witness :
    ∃ c : Campaign,
      slotAt (registerCampaign defaultConfig 7 stC5 "A" Platform.google sampleData)
        "A" Platform.google = some c ∧
      c.status = "active" ∧ c.createdAt = 7 ∧
      c.expiresAt = 7 + defaultConfig.campaignDurationHours * 3600000 ∧
      (∀ o s, mget "A" stC5.activeOutages = some o → o.severity = some s →
        (c.budget = platformBudget s Platform.google ∨
          ∃ b, sampleData.budget = some b ∧ c.budget = b)) ∧
      (mget "A" stC5.activeOutages = none → c.budget = 0) :=
  registerCampaign_contract defaultConfig 7 stC5 "A" Platform.google sampleData

/-- Claim C6: reconciling with an empty snapshot empties the active set,
moves every previously active incident into the resolved map stamped
`_resolvedAt = now` (hence `≥` the call time), and reports exactly
those records in the returned `resolvedOutages` list. -/
theorem empty_snapshot_resolves_all (cfg : Config) (now : Nat) (st : ServiceState)
    (hA : (keys st.activeOutages).Nodup) (hR : (keys st.resolvedOutages).Nodup) :
    (processOutages cfg now [] st).1.activeOutages = [] ∧
    (∀ e ∈ st.activeOutages,
      mget e.1 ((processOutages cfg now [] st).1.resolvedOutages) =
        some { e.2 with resolvedAt := some now }) ∧
    (processOutages cfg now [] st).2.resolvedOutages =
      st.activeOutages.map (fun e => { e.2 with resolvedAt := some now }) ∧
    ∀ r ∈ (processOutages cfg now [] st).2.resolvedOutages, r.resolvedAt = some now := by
  rw [processOutages_nil_eq]
  refine ⟨rfl, ?_, by simp, ?_⟩
  · intro e he
    have hsk : keys (st.activeOutages.map
        (fun e => (e.1, { e.2 with resolvedAt := some now }))) = keys st.activeOutages :=
      keys_map_pair _ _
    have hnd1 : (keys ((st.activeOutages.map
        (fun e => (e.1, { e.2 with resolvedAt := some now }))).foldl
        (fun m e => mset e.1 e.2 m) st.resolvedOutages)).Nodup :=
      nodup_keys_foldl_mset _ hR
    have hmem : (e.1, { e.2 with resolvedAt := some now }) ∈
        st.activeOutages.map (fun e => (e.1, { e.2 with resolvedAt := some now })) :=
      List.mem_map_of_mem _ he
    have h1 : mget e.1 ((st.activeOutages.map
        (fun e => (e.1, { e.2 with resolvedAt := some now }))).foldl
        (fun m e => mset e.1 e.2 m) st.resolvedOutages) =
        some { e.2 with resolvedAt := some now } :=
      mget_foldl_mset_of_mem _ (by rw [hsk]; exact hA) hmem
    rw [mget_filter _ hnd1 e.1, h1]
    have hexp : resolvedExpired now { e.2 with resolvedAt := some now } = false := by
      show decide (now + 86400000 < now) = false
      rw [decide_eq_false_iff_not]
      omega
    simp [hexp]
  · intro r hr
    rcases List.mem_map.mp hr with ⟨e, he, rfl⟩
    rcases List.mem_map.mp he with ⟨e', he', rfl⟩
    rfl

/-- Claim C6 (witness): a two-incident active state resolved by the
empty snapshot at time 99. -/
theorem empty_snapshot_resolves_all_witness :
    (processOutages defaultConfig 99 [] stTwoActive).1.activeOutages = [] ∧
    (∀ e ∈ stTwoActive.activeOutages,
      mget e.1 ((processOutages defaultConfig 99 [] stTwoActive).1.resolvedOutages) =
        some { e.2 with resolvedAt := some 99 }) ∧
    (processOutages defaultConfig 99 [] stTwoActive).2.resolvedOutages =
      stTwoActive.activeOutages.map (fun e => { e.2 with resolvedAt := some 99 }) ∧
    ∀ r ∈ (processOutages defaultConfig 99 [] stTwoActive).2.resolvedOutages,
      r.resolvedAt = some 99 :=
  empty_snapshot_resolves_all defaultConfig 99 stTwoActive (by decide) (by decide)

/-- Claim C7: the sweep at the end of every `processOutages` call
removes from the resolved map exactly the records whose `_resolvedAt`
is strictly older than 24 hours before the call time — the record is
kept unchanged otherwise — and the event log is untouched (no purge
event). -/
theorem retention_sweep_exact (cfg : Config) (now : Nat) (fresh : List RawOutage)
    (st : ServiceState)
    (hA : (keys st.activeOutages).Nodup) (hR : (keys st.resolvedOutages).Nodup)
    (id : String) (r : OutageRecord) (t : Nat)
    (hget : mget id st.resolvedOutages = some r)
    (hres : r.resolvedAt = some t)
    (hact : mget id st.activeOutages = none) :
    mget id ((processOutages cfg now fresh st).1.resolvedOutages) =
      (if t + 86400000 < now then none else some r) ∧
    (processOutages cfg now fresh st).1.eventLog = st.eventLog := by
  refine ⟨?_, rfl⟩
  have hshape : (processOutages cfg now fresh st).1.resolvedOutages =
      ((((fresh.foldl (processStep cfg now) (st.activeOutages, [], [])).1.filter
            (fun e => !(fresh.map (fun o => o.id)).contains e.1)).map
            (fun e => (e.1, { e.2 with resolvedAt := some now }))).foldl
          (fun m e => mset e.1 e.2 m) st.resolvedOutages).filter
        (fun e => !resolvedExpired now e.2) := rfl
  rw [hshape]
  have hnotin : id ∉ keys (((fresh.foldl (processStep cfg now)
      (st.activeOutages, [], [])).1.filter
        (fun e => !(fresh.map (fun o => o.id)).contains e.1)).map
        (fun e => (e.1, { e.2 with resolvedAt := some now }))) := by
    intro hmem
    rw [keys_map_pair] at hmem
    simp only [keys] at hmem
    rcases List.mem_map.mp hmem with ⟨e, he, hee⟩
    rcases List.mem_filter.mp he with ⟨heact, hepred⟩
    have hids : e.1 ∈ keys st.activeOutages ++ fresh.map (fun o => o.id) :=
      keys_phase1_sub cfg now fresh _ (List.mem_map_of_mem Prod.fst heact)
    rw [List.mem_append] at hids
    rcases hids with hh | hh
    · rw [hee] at hh
      exact (mget_eq_none_iff.mp hact) hh
    · have hcont : (fresh.map (fun o => o.id)).contains e.1 = true :=
        contains_iff_mem.mpr hh
      rw [hcont] at hepred
      simp at hepred
  have h1 : mget id ((((fresh.foldl (processStep cfg now)
      (st.activeOutages, [], [])).1.filter
        (fun e => !(fresh.map (fun o => o.id)).contains e.1)).map
        (fun e => (e.1, { e.2 with resolvedAt := some now }))).foldl
      (fun m e => mset e.1 e.2 m) st.resolvedOutages) = some r := by
    rw [mget_foldl_mset_of_not_mem _ _ hnotin]
    exact hget
  have hnd1 : (keys ((((fresh.foldl (processStep cfg now)
      (st.activeOutages, [], [])).1.filter
        (fun e => !(fresh.map (fun o => o.id)).contains e.1)).map
        (fun e => (e.1, { e.2 with resolvedAt := some now }))).foldl
      (fun m e => mset e.1 e.2 m) st.resolvedOutages)).Nodup :=
    nodup_keys_foldl_mset _ hR
  rw [mget_filter _ hnd1 id, h1]
  by_cases hlt : t + 86400000 < now
  · simp [resolvedExpired, hres, hlt]
  · simp [resolvedExpired, hres, hlt]

/-- Claim C7 (witness): sweeping at t = 2 days purges a record resolved
at `now − 24h − 1 ms` and retains one resolved at `now − 24h + 1 ms`,
touching no event log. -/
theorem retention_sweep_exact_witness :
    (mget "R" ((processOutages defaultConfig 172800000 [] stPurge).1.resolvedOutages) =
        (if 86399999 + 86400000 < 172800000 then none else some recOldRes) ∧
      (processOutages defaultConfig 172800000 [] stPurge).1.eventLog = stPurge.eventLog) ∧
    (mget "R" ((processOutages defaultConfig 172800000 [] stRetain).1.resolvedOutages) =
        (if 86400001 + 86400000 < 172800000 then none else some recNewRes) ∧
      (processOutages defaultConfig 172800000 [] stRetain).1.eventLog = stRetain.eventLog) :=
  ⟨retention_sweep_exact defaultConfig 172800000 [] stPurge (by decide) (by decide)
      "R" recOldRes 86399999 (by decide) (by decide) (by decide),
    retention_sweep_exact defaultConfig 172800000 [] stRetain (by decide) (by decide)
      "R" recNewRes 86400001 (by decide) (by decide) (by decide)⟩

/-- Claim C8: `_enrichOutage` clamps each looked-up tier budget to the
configured maximum: whenever the tier value exceeds the cap, the
enriched `_severity` stores exactly the cap, never the uncapped tier
value. -/
theorem enrich_budget_caps (cfg : Config) (now : Nat) (o : RawOutage) :
    (cfg.maxDailyBudgetGoogle < (classifySeverity o).googleBudget →
      ((enrichOutage cfg now o).severity).map SeverityInfo.googleBudget =
        some cfg.maxDailyBudgetGoogle) ∧
    (cfg.maxDailyBudgetMeta < (classifySeverity o).metaBudget →
      ((enrichOutage cfg now o).severity).map SeverityInfo.metaBudget =
        some cfg.maxDailyBudgetMeta) := by
  constructor
  · intro hg
    show some (min (classifySeverity o).googleBudget cfg.maxDailyBudgetGoogle) = _
    rw [Nat.min_eq_right (Nat.le_of_lt hg)]
  · intro hm
    show some (min (classifySeverity o).metaBudget cfg.maxDailyBudgetMeta) = _
    rw [Nat.min_eq_right (Nat.le_of_lt hm)]

/-- Claim C8 (witness): under caps 10/8 a critical incident (tier 60/50)
is stored clamped to exactly 10 and 8. -/
theorem enrich_budget_caps_witness :
    cfg10.maxDailyBudgetGoogle < (classifySeverity raw5000).googleBudget ∧
    ((enrichOutage cfg10 3 raw5000).severity).map SeverityInfo.googleBudget =
      some cfg10.maxDailyBudgetGoogle ∧
    cfg10.maxDailyBudgetMeta < (classifySeverity raw5000).metaBudget ∧
    ((enrichOutage cfg10 3 raw5000).severity).map SeverityInfo.metaBudget =
      some cfg10.maxDailyBudgetMeta :=
  ⟨by decide, (enrich_budget_caps cfg10 3 raw5000).1 (by decide), by decide,
    (enrich_budget_caps cfg10 3 raw5000).2 (by decide)⟩

/-- Claim C9: the persistence gateway round-trips the engine state
(`restore(snapshot(S)) = S`) for every well-formed state — including
the empty one — and a missing bundle restores as the empty collection,
never an error.  Well-formedness is exactly the `Map` representation
invariant (distinct keys, records stored under their own id) that every
JavaScript `Map` satisfies by construction. -/
theorem persistence_roundtrip :
    (∀ (st : ServiceState) (store : Store), WellFormedState st →
        loadState (saveState st store) = st) ∧
    (∀ store : Store,
        (store.activeOutagesFile = none → (loadState store).activeOutages = []) ∧
        (store.resolvedOutagesFile = none → (loadState store).resolvedOutages = []) ∧
        (store.campaignsFile = none → (loadState store).campaigns = []) ∧
        (store.eventLogFile = none → (loadState store).eventLog = [])) := by
  constructor
  · intro st store hwf
    obtain ⟨hA, hAid, hR, hRid, hC⟩ := hwf
    have h1 := rebuild_append (fun o : OutageRecord => o.id) (fun o => o) (fun e => e.2)
        st.activeOutages [] (by simpa using hA) (fun e he => ⟨(hAid e he).symm, rfl⟩)
    have h2 := rebuild_append (fun o : OutageRecord => o.id) (fun o => o) (fun e => e.2)
        st.resolvedOutages [] (by simpa using hR) (fun e he => ⟨(hRid e he).symm, rfl⟩)
    have h3 := rebuild_append SavedCampaign.outageId SavedCampaign.platforms
        (fun e => (⟨e.1, e.2⟩ : SavedCampaign)) st.campaigns [] (by simpa using hC)
        (fun e he => ⟨rfl, rfl⟩)
    simp only [List.nil_append] at h1 h2 h3
    unfold loadState saveState
    simp only [Option.getD_some]
    rw [h1, h2, h3]
  · intro store
    refine ⟨?_, ?_, ?_, ?_⟩ <;> intro h <;> simp [loadState, h]

/-- Claim C9 (witness): a populated state round-trips, and restoring
from a store with no campaigns file yields the empty campaign map. -/
theorem persistence_roundtrip_witness :
    loadState (saveState stRound emptyStore) = stRound ∧
    (loadState emptyStore).campaigns = [] :=
  ⟨persistence_roundtrip.1 stRound emptyStore (by decide),
    (persistence_roundtrip.2 emptyStore).2.2.1 rfl⟩

/-- Claim C10: on the update path the merged record's `_severity` is
`_classifySeverity(outage)` alone — no budget capping — so when the
tier budget exceeds `maxDailyBudgetGoogle` the updated record stores
the uncapped tier value, while enrichment of the same incident would
have stored exactly the cap. -/
theorem update_recomputes_severity_uncapped (cfg : Config) (now : Nat)
    (st : ServiceState) (fresh : List RawOutage) (o : RawOutage) (ex : OutageRecord)
    (hA : (keys st.activeOutages).Nodup)
    (hN : (fresh.map (fun x => x.id)).Nodup)
    (ho : o ∈ fresh)
    (hex : mget o.id st.activeOutages = some ex)
    (hcap : cfg.maxDailyBudgetGoogle < (classifySeverity o).googleBudget) :
    mget o.id ((processOutages cfg now fresh st).1.activeOutages) =
      some (mergeUpdate ex o now) ∧
    (mergeUpdate ex o now).severity = some (classifySeverity o) ∧
    ((enrichOutage cfg now o).severity).map SeverityInfo.googleBudget =
      some cfg.maxDailyBudgetGoogle ∧
    ((mergeUpdate ex o now).severity).map SeverityInfo.googleBudget =
      some ((classifySeverity o).googleBudget) ∧
    cfg.maxDailyBudgetGoogle ≠ (classifySeverity o).googleBudget := by
  have hshape : (processOutages cfg now fresh st).1.activeOutages =
      (fresh.foldl (processStep cfg now) (st.activeOutages, [], [])).1.filter
        (fun e => (fresh.map (fun x => x.id)).contains e.1) := rfl
  have hupd := mget_phase1_update cfg now fresh (st.activeOutages, [], []) o ex ho hN hex
  have hnd := nodup_keys_phase1 cfg now fresh (st.activeOutages, [], []) hA
  have hcont : (fresh.map (fun x => x.id)).contains o.id = true :=
    contains_iff_mem.mpr (List.mem_map_of_mem _ ho)
  refine ⟨?_, rfl, ?_, rfl, ?_⟩
  · rw [hshape, mget_filter _ hnd o.id, hupd]
    simp [hcont]
    exact ⟨o, ho, rfl⟩
  · show some (min (classifySeverity o).googleBudget cfg.maxDailyBudgetGoogle) = _
    rw [Nat.min_eq_right (Nat.le_of_lt hcap)]
  · exact Nat.ne_of_lt hcap

/-- Claim C10 (witness): `B` is tracked after enrichment under cap 10
(clamped 10); the snapshot re-delivers `B` with 5000 households and the
merged record stores the uncapped tier budget 60. -/
theorem update_recomputes_severity_uncapped_witness :
    mget raw5000.id ((processOutages cfg10 5 [raw5000] stTracked).1.activeOutages) =
      some (mergeUpdate recB raw5000 5) ∧
    (mergeUpdate recB raw5000 5).severity = some (classifySeverity raw5000) ∧
    ((enrichOutage cfg10 5 raw5000).severity).map SeverityInfo.googleBudget =
      some cfg10.maxDailyBudgetGoogle ∧
    ((mergeUpdate recB raw5000 5).severity).map SeverityInfo.googleBudget =
      some ((classifySeverity raw5000).googleBudget) ∧
    cfg10.maxDailyBudgetGoogle ≠ (classifySeverity raw5000).googleBudget :=
  update_recomputes_severity_uncapped cfg10 5 stTracked [raw5000] raw5000 recB
    (by decide) (by decide) (by decide) (by decide) (by decide)

end GeoAdds
